import Mathlib

/-!
Verification development for a command-line contact manager
(`src/task.py`).  The Python source is shallowly embedded below:
pure functions become Lean functions, imperative code with in-place
mutation becomes explicit state passing, and raised exceptions become
`Except` / `Option` results.  Python `datetime.date` values are
modelled as year/month/day triples of naturals with the proleptic
Gregorian calendar rules CPython implements.
-/

/-- Model of `datetime.date`: a year/month/day triple.  CPython keeps
the invariant `1 <= year <= 9999` and a day valid for the month; the
predicate `validDate` below captures it.  -/
structure PyDate where
  year : Nat
  month : Nat
  day : Nat
  deriving DecidableEq

/-- Gregorian leap-year rule, as in CPython `datetime.py` `_is_leap`. -/
def isLeap (y : Nat) : Bool :=
  y % 4 == 0 && (y % 100 != 0 || y % 400 == 0)

/-- Days in a month, as in CPython `datetime.py` `_days_in_month`. -/
def daysInMonth (y m : Nat) : Nat :=
  if m = 2 then (if isLeap y then 29 else 28)
  else if m = 4 ∨ m = 6 ∨ m = 9 ∨ m = 11 then 30
  else 31

/-- The dates `datetime.date` can represent (MINYEAR = 1, MAXYEAR = 9999). -/
def validDate (d : PyDate) : Bool :=
  decide (1 ≤ d.year) && decide (d.year ≤ 9999) &&
  decide (1 ≤ d.month) && decide (d.month ≤ 12) &&
  decide (1 ≤ d.day) && decide (d.day ≤ daysInMonth d.year d.month)

/-- Model of the `datetime.date` constructor: the checks and error
messages of CPython's `_check_date_fields`, in order (year, month,
day). -/
def mkDate (y m d : Nat) : Except String PyDate :=
  if y < 1 ∨ 9999 < y then .error ("year " ++ toString y ++ " is out of range")
  else if m < 1 ∨ 12 < m then .error "month must be in 1..12"
  else if d < 1 ∨ daysInMonth y m < d then .error "day is out of range for month"
  else .ok ⟨y, m, d⟩

/-- Python `date` ordering is lexicographic on (year, month, day). -/
def dateLt (a b : PyDate) : Bool :=
  decide (a.year < b.year) ||
  (decide (a.year = b.year) &&
    (decide (a.month < b.month) ||
      (decide (a.month = b.month) && decide (a.day < b.day))))

def dateLe (a b : PyDate) : Bool :=
  dateLt a b || decide (a = b)

/-- Days in year `y` strictly before month `m` (sum of whole months). -/
def daysBeforeMonth (y : Nat) : Nat → Nat
  | 0 => 0
  | 1 => 0
  | m + 1 => daysBeforeMonth y m + daysInMonth y m

/-- Proleptic Gregorian ordinal, as `date.toordinal()`:
0001-01-01 is day 1. -/
def toOrdinal (d : PyDate) : Nat :=
  365 * (d.year - 1) + (d.year - 1) / 4 + (d.year - 1) / 400 - (d.year - 1) / 100
    + daysBeforeMonth d.year d.month + d.day

/-- Python `date.weekday()`: Monday = 0, ..., Saturday = 5, Sunday = 6. -/
def pyWeekday (d : PyDate) : Nat :=
  (toOrdinal d + 6) % 7

/-- The calendar successor of a date (used to model `+ timedelta(days=n)`). -/
def nextDay (d : PyDate) : PyDate :=
  if d.day < daysInMonth d.year d.month then ⟨d.year, d.month, d.day + 1⟩
  else if d.month < 12 then ⟨d.year, d.month + 1, 1⟩
  else ⟨d.year + 1, 1, 1⟩

/-- Model of `d + timedelta(days = n)` for `n ≥ 0`.  CPython raises
`OverflowError` when the result would leave year 9999; the model keeps
counting into later years, so theorems about the scan restrict the
window to end at year 9999 or below.  -/
def addDays (d : PyDate) (n : Nat) : PyDate :=
  Nat.iterate nextDay n d


/-! ## Phone validation (`Phone._validate`) -/

/-- Partial model of Python `str.isdigit` on a single character: true on
the ASCII digits and on the non-ASCII decimal-digit ranges used in this
development (Arabic-Indic digits U+0660–U+0669 and fullwidth digits
U+FF10–U+FF19, both of Unicode category Nd, on which CPython's
`str.isdigit` returns `True`).  CPython returns `True` on further
Unicode ranges that no definition or theorem below ever touches;
theorems quantifying over arbitrary strings therefore restrict to
ASCII input. -/
def pyIsDigitChar (c : Char) : Bool :=
  (decide (48 ≤ c.toNat) && decide (c.toNat ≤ 57)) ||
  (decide (0x660 ≤ c.toNat) && decide (c.toNat ≤ 0x669)) ||
  (decide (0xFF10 ≤ c.toNat) && decide (c.toNat ≤ 0xFF19))

/-- Python `str.isdigit`: nonempty and every character a digit. -/
def pyIsdigit (s : String) : Bool :=
  decide (s.toList ≠ []) && s.toList.all pyIsDigitChar

/-- `Phone._validate` (task.py lines 23-26): the value (always a string
here) must satisfy `value.isdigit()` and `len(value) == 10`; `len` on a
Python `str` counts code points, as `String.length` does.  `true` means
the `Phone` constructor succeeds, `false` that it raises
`ValueError("Phone must contain exactly 10 digits")`. -/
def phoneValidate (s : String) : Bool :=
  pyIsdigit s && decide (s.length = 10)

/-! ## Birthday parsing (`Birthday.__init__` / `__str__`)

`Birthday` parses with `datetime.strptime(value, "%d.%m.%Y")`.  CPython's
`_strptime` compiles that format to the anchored regex

  `(3[01]|[12]\d|0[1-9]|[1-9])\.(1[0-2]|0[1-9]|[1-9])\.(\d\d\d\d)`

requires the whole input to be consumed, converts each group with `int`,
and feeds the numbers to the `datetime` constructor, whose date checks are
`validDate`.  Because the literal `.` separators are not digits, a group
must swallow the entire digit run before the separator, so on ASCII input
the regex accepts exactly: day = 1–2 digit run with value 1–31,
month = 1–2 digit run with value 1–12, year = exactly 4 digits; the
constructor then enforces real-calendar validity (which subsumes the
regex value ranges).  Non-ASCII input is outside the model: CPython's
`\d` also matches non-ASCII decimal digits, so theorems below restrict
to ASCII strings. -/

/-- Split a character list at every `'.'` (the separator structure of the
anchored `_strptime` regex for `"%d.%m.%Y"`). -/
def splitDots : List Char → List (List Char)
  | [] => [[]]
  | c :: cs =>
    if c = '.' then [] :: splitDots cs
    else
      match splitDots cs with
      | [] => [[c]]
      | g :: gs => (c :: g) :: gs

/-- Inverse of `splitDots`: interleave the groups with `'.'`. -/
def joinD : List (List Char) → List Char
  | [] => []
  | [g] => g
  | g :: gs => g ++ '.' :: joinD gs

/-- ASCII decimal digit test, code points 48–57 (the characters the
`_strptime` regex groups match on ASCII input). -/
def asciiDigit (c : Char) : Bool :=
  decide (48 ≤ c.toNat) && decide (c.toNat ≤ 57)

/-- Python `int` on a matched all-digit group. -/
def decimalVal (cs : List Char) : Nat :=
  cs.foldl (fun a c => 10 * a + (c.toNat - 48)) 0

/-- `Birthday.__init__` (task.py lines 29-34) on ASCII input: `some d`
when `datetime.strptime(s, "%d.%m.%Y").date()` succeeds with date `d`,
`none` when it raises `ValueError` (re-raised by the source as
`ValueError("Invalid date format. Use DD.MM.YYYY")`).  The regex value
ranges (day 1–31, month 1–12) are subsumed by `validDate`, so they are
not repeated here; the group lengths are not, and are checked. -/
def dmyAccept (ds ms ys : List Char) : Bool :=
  ds.all asciiDigit && decide (1 ≤ ds.length) && decide (ds.length ≤ 2) &&
  ms.all asciiDigit && decide (1 ≤ ms.length) && decide (ms.length ≤ 2) &&
  ys.all asciiDigit && decide (ys.length = 4) &&
  validDate ⟨decimalVal ys, decimalVal ms, decimalVal ds⟩

def dmyParse (ds ms ys : List Char) : Option PyDate :=
  if dmyAccept ds ms ys then some ⟨decimalVal ys, decimalVal ms, decimalVal ds⟩
  else none

def pyStrptimeDMY (s : String) : Option PyDate :=
  match splitDots s.toList with
  | [ds, ms, ys] => dmyParse ds ms ys
  | _ => none

/-- The character `'0' + k` for a digit value `k < 10`. -/
def digitChar (k : Nat) : Char := Char.ofNat (48 + k)

/-- Two-digit zero-padded rendering (strftime `%d` / `%m`, for values
below 100). -/
def render2 (n : Nat) : List Char := [digitChar (n / 10 % 10), digitChar (n % 10)]

/-- Four-digit rendering of a year (strftime `%Y` for 1000–9999; below
1000 glibc prints the year unpadded, so theorems that re-parse rendered
dates keep the year at 1000 or above). -/
def render4 (n : Nat) : List Char :=
  [digitChar (n / 1000 % 10), digitChar (n / 100 % 10),
   digitChar (n / 10 % 10), digitChar (n % 10)]

/-- `Birthday.__str__` (task.py lines 36-37):
`self.value.strftime("%d.%m.%Y")`. -/
def pyStrftimeDMY (d : PyDate) : String :=
  ⟨render2 d.day ++ '.' :: render2 d.month ++ '.' :: render4 d.year⟩


/-! ## Records (`Record`) -/

/-- `Record`: one contact's name, ordered phone list, optional birthday.
Phones are kept as their validated 10-digit strings (`Phone.value`);
the birthday as the parsed date (`Birthday.value`). -/
structure PyRecord where
  name : String
  phones : List String
  birthday : Option PyDate
  deriving DecidableEq

/-- `Record.__init__` (task.py lines 40-43): `Name` performs no
validation (it is a bare `Field`), so construction never raises, for any
string (empty included), and starts with no phones and no birthday. -/
def recordInit (name : String) : PyRecord :=
  ⟨name, [], none⟩

/-- The `for`/`enumerate` loop of `edit_phone` (task.py lines 53-56):
replace the first element equal to `old`, or report that none matched. -/
def replaceFirst : List String → String → String → Option (List String)
  | [], _, _ => none
  | p :: ps, old, new =>
    if p = old then some (new :: ps)
    else (replaceFirst ps old new).map (p :: ·)

/-- `Record.edit_phone` (task.py lines 51-57), with the in-place mutation
made explicit: the first component is the raised `ValueError` message (if
any), the second the record afterwards.  `Phone(new_phone)` runs before
the loop, so an invalid new phone raises with the record untouched; the
loop either replaces the first match and returns, or falls through to
`raise ValueError("Old phone not found")`, again leaving the record
untouched. -/
def editPhoneRun (r : PyRecord) (old new : String) : Option String × PyRecord :=
  if phoneValidate new then
    match replaceFirst r.phones old new with
    | some ps => (none, { r with phones := ps })
    | none => (some "Old phone not found", r)
  else (some "Phone must contain exactly 10 digits", r)


/-! ## The address book (`AddressBook`)

`AddressBook` is a `UserDict` keyed by `record.name.value`; a Python
`dict` preserves insertion order and keeps the original position when an
existing key is overwritten.  It is modelled as an association list with
exactly those update semantics. -/

def Book := List (String × PyRecord)

instance : DecidableEq Book := inferInstanceAs (DecidableEq (List (String × PyRecord)))

/-- `AddressBook.find` (task.py lines 77-78): `self.data.get(name)`. -/
def bookFind (b : Book) (n : String) : Option PyRecord :=
  match b with
  | [] => none
  | (k, r) :: rest => if k = n then some r else bookFind rest n

/-- `AddressBook.add_record` (task.py lines 74-75):
`self.data[record.name.value] = record` — replace in place if the key
exists, else append. -/
def bookAdd (b : Book) (r : PyRecord) : Book :=
  match b with
  | [] => [(r.name, r)]
  | (k, r') :: rest =>
    if k = r.name then (k, r) :: rest else (k, r') :: bookAdd rest r

/-- Replace the record stored under key `n` (models mutating, through a
reference obtained from the dict, a record that stays at its position). -/
def bookSet (b : Book) (n : String) (r : PyRecord) : Book :=
  b.map (fun p => if p.1 = n then (n, r) else p)

/-- `self.data.values()` in insertion order. -/
def bookValues (b : Book) : List PyRecord := b.map Prod.snd

/-! ## The birthday scan (`AddressBook.get_upcoming_birthdays`) -/

/-- `date.replace(year := y)` (task.py lines 93 and 96): rebuilds the
date through the `datetime.date` constructor, hence can raise (e.g. a
Feb 29 birthday moved to a non-leap year). -/
def bdayReplace (b : PyDate) (y : Nat) : Except String PyDate :=
  mkDate y b.month b.day

/-- Lines 93-96 of task.py: this year's occurrence of the birthday, or
next year's when this year's is strictly before `today`.  An `.error`
is a `ValueError` escaping from `date.replace`. -/
def nextBd (b today : PyDate) : Except String PyDate :=
  match bdayReplace b today.year with
  | .error e => .error e
  | .ok nb => if dateLt nb today then bdayReplace b (today.year + 1) else .ok nb

/-- Lines 99-103 of task.py: shift a Saturday occurrence forward 2 days
and a Sunday occurrence forward 1 day (Python `weekday()`: Saturday = 5,
Sunday = 6). -/
def congrOf (nb : PyDate) : PyDate :=
  if pyWeekday nb = 5 then addDays nb 2
  else if pyWeekday nb = 6 then addDays nb 1
  else nb

/-- The record loop of `get_upcoming_birthdays` (task.py lines 88-108):
records without a birthday are skipped; a `ValueError` raised by
`date.replace` propagates, aborting the whole scan (there is no
`try`/`except` in the method); a record whose occurrence lies in the
inclusive window contributes `(name, congratulation date)`. -/
def scanRecords : List PyRecord → PyDate → PyDate → Except String (List (String × PyDate))
  | [], _, _ => .ok []
  | r :: rs, today, endDay =>
    match r.birthday with
    | none => scanRecords rs today endDay
    | some b =>
      match nextBd b today with
      | .error e => .error e
      | .ok nb =>
        match scanRecords rs today endDay with
        | .error e => .error e
        | .ok rest =>
          if dateLe today nb && dateLe nb endDay
          then .ok ((r.name, congrOf nb) :: rest)
          else .ok rest

/-- Stable insertion of an entry into a date-sorted list. -/
def insertByDate (x : String × PyDate) : List (String × PyDate) → List (String × PyDate)
  | [] => [x]
  | y :: ys => if dateLe x.2 y.2 then x :: y :: ys else y :: insertByDate x ys

/-- Line 109 of task.py: `result.sort(key = strptime of the rendered
congratulation date)` — a stable ascending sort by the date value.  The
source stores `congr_date.strftime("%d.%m.%Y")` and re-parses it as the
sort key; for the dates the theorems range over (years 1000–9999) that
round-trips to the date itself, so the model stores and sorts the dates
directly. -/
def sortByDate (l : List (String × PyDate)) : List (String × PyDate) :=
  l.foldr insertByDate []

/-- `AddressBook.get_upcoming_birthdays` (task.py lines 83-110), with
`date.today()` and the `days` argument passed explicitly.  The model
does not reproduce CPython's `OverflowError` when `today + timedelta
(days)` leaves year 9999, nor glibc's unpadded `%Y` under year 1000;
theorems quantifying over `today`/`days` restrict to windows inside
years 1000–9999, where the model and CPython agree. -/
def getUpcomingBirthdays (book : Book) (days : Nat) (today : PyDate) :
    Except String (List (String × PyDate)) :=
  match scanRecords (bookValues book) today (addDays today days) with
  | .error e => .error e
  | .ok l => .ok (sortByDate l)

deriving instance DecidableEq for Except


/-! ## Persistence (`load_data`, task.py lines 116-127)

`load_data` interacts with the file system and `pickle`; the shallow
embedding takes the outcome of that interaction as input: `none` for a
missing file (`path.exists()` false), otherwise the outcome of
`pickle.load` on the file's bytes.  `pickle.load` either returns a value
(which may or may not be an `AddressBook`) or raises; per the `pickle`
documentation, besides `UnpicklingError` and `EOFError` it may raise
other exceptions on corrupt input — e.g. the concrete stream
`b"cbuiltins\nnosuchattr\n."` raises `AttributeError`, and a stream
naming an unimportable module raises `ModuleNotFoundError` — which the
`except (EOFError, pickle.UnpicklingError)` clause does not catch. -/

inductive PickleOutcome where
  /-- `pickle.load` returned a value; `isBook` records
  `isinstance(data, AddressBook)`, and `book` the value when it is one. -/
  | ok (isBook : Bool) (book : Book)
  | eofError
  | unpicklingError
  /-- any exception other than `EOFError`/`UnpicklingError` raised
  during unpickling (e.g. `AttributeError`, `ImportError`). -/
  | otherError (name : String)

/-- `load_data` (task.py lines 116-127).  `.error` means the exception
escapes to the caller. -/
def loadData (file : Option PickleOutcome) : Except String Book :=
  match file with
  | none => .ok []
  | some (.ok true b) => .ok b
  | some (.ok false _) => .ok []
  | some .eofError => .ok []
  | some .unpicklingError => .ok []
  | some (.otherError e) => .error e

/-! ## Command handlers (task.py lines 136-206)

Each handler body may raise; `input_error` converts the four caught
exception classes to message strings.  Starred tuple unpacking
`a, b, *rest = args` with too few elements raises
`ValueError("not enough values to unpack (expected at least N, got L)")`
— a `ValueError`, not an `IndexError`, so `input_error`'s dedicated
`IndexError` branch (`"Not enough arguments."`) is never reached by
these handlers.  Mutation of the book is modelled by returning the book
after the call; mutations made before an exception persist, as they do
in Python. -/

inductive PyErr where
  | keyError
  | valueError (msg : String)
  | indexError
  | attributeError

/-- The message of the `ValueError` CPython raises when starred
unpacking `(expected at least n)` receives only `got` values. -/
def unpackMsg (n got : Nat) : String :=
  "not enough values to unpack (expected at least " ++ toString n ++
    ", got " ++ toString got ++ ")"

/-- `input_error` (task.py lines 136-148) applied to a handler outcome. -/
def inputError (r : Except PyErr String × Book) : String × Book :=
  match r with
  | (.ok s, b) => (s, b)
  | (.error .keyError, b) => ("Contact not found.", b)
  | (.error (.valueError m), b) => (m, b)
  | (.error .indexError, b) => ("Not enough arguments.", b)
  | (.error .attributeError, b) => ("Contact not found.", b)

/-- Body of `add_contact` (task.py lines 150-161).  `if phone:` is
string truthiness (non-emptiness); `record.add_phone(phone)` validates
and can raise after the record was already inserted. -/
def addContactBody (args : List String) (book : Book) : Except PyErr String × Book :=
  match args with
  | name :: phone :: _ =>
    match bookFind book name with
    | some r =>
      if phone ≠ "" then
        if phoneValidate phone then
          (.ok "Contact updated.", bookSet book name { r with phones := r.phones ++ [phone] })
        else (.error (.valueError "Phone must contain exactly 10 digits"), book)
      else (.ok "Contact updated.", book)
    | none =>
      let book1 := bookAdd book (recordInit name)
      if phone ≠ "" then
        if phoneValidate phone then
          (.ok "Contact added.", bookSet book1 name { recordInit name with phones := [phone] })
        else (.error (.valueError "Phone must contain exactly 10 digits"), book1)
      else (.ok "Contact added.", book1)
  | _ => (.error (.valueError (unpackMsg 2 args.length)), book)

/-- Body of `change_contact` (task.py lines 163-170). -/
def changeContactBody (args : List String) (book : Book) : Except PyErr String × Book :=
  match args with
  | name :: old :: new :: _ =>
    match bookFind book name with
    | none => (.error .keyError, book)
    | some r =>
      match editPhoneRun r old new with
      | (none, r') => (.ok "Phone updated.", bookSet book name r')
      | (some m, _) => (.error (.valueError m), book)
  | _ => (.error (.valueError (unpackMsg 3 args.length)), book)

/-- Body of `show_phones` (task.py lines 172-180). -/
def showPhonesBody (args : List String) (book : Book) : Except PyErr String × Book :=
  match args with
  | name :: _ =>
    match bookFind book name with
    | none => (.error .keyError, book)
    | some r =>
      if r.phones = [] then (.ok "No phones.", book)
      else (.ok (String.intercalate "; " r.phones), book)
  | [] => (.error (.valueError (unpackMsg 1 0)), book)

/-- Body of `add_birthday` (task.py lines 188-196).  When the contact is
new, the record is inserted before the birthday string is validated, so
an invalid date still leaves the fresh record in the book. -/
def addBirthdayBody (args : List String) (book : Book) : Except PyErr String × Book :=
  match args with
  | name :: bs :: _ =>
    match bookFind book name with
    | some r =>
      match pyStrptimeDMY bs with
      | some d => (.ok "Birthday added.", bookSet book name { r with birthday := some d })
      | none => (.error (.valueError "Invalid date format. Use DD.MM.YYYY"), book)
    | none =>
      let book1 := bookAdd book (recordInit name)
      match pyStrptimeDMY bs with
      | some d =>
        (.ok "Birthday added.", bookSet book1 name { recordInit name with birthday := some d })
      | none => (.error (.valueError "Invalid date format. Use DD.MM.YYYY"), book1)
  | _ => (.error (.valueError (unpackMsg 2 args.length)), book)

/-- Body of `show_birthday` (task.py lines 198-206). -/
def showBirthdayBody (args : List String) (book : Book) : Except PyErr String × Book :=
  match args with
  | name :: _ =>
    match bookFind book name with
    | none => (.error .keyError, book)
    | some r =>
      match r.birthday with
      | none => (.ok "No birthday set.", book)
      | some d => (.ok (pyStrftimeDMY d), book)
  | [] => (.error (.valueError (unpackMsg 1 0)), book)

/-- `add_contact` as wrapped by `@input_error`. -/
def addContact (args : List String) (book : Book) : String × Book :=
  inputError (addContactBody args book)

/-- `change_contact` as wrapped by `@input_error`. -/
def changeContact (args : List String) (book : Book) : String × Book :=
  inputError (changeContactBody args book)

/-- `show_phones` as wrapped by `@input_error`. -/
def showPhones (args : List String) (book : Book) : String × Book :=
  inputError (showPhonesBody args book)

/-- `add_birthday` as wrapped by `@input_error`. -/
def addBirthday (args : List String) (book : Book) : String × Book :=
  inputError (addBirthdayBody args book)

/-- `show_birthday` as wrapped by `@input_error`. -/
def showBirthday (args : List String) (book : Book) : String × Book :=
  inputError (showBirthdayBody args book)

/-! ## Helper lemmas -/

theorem replaceFirst_append (pre post : List String) (old new : String)
    (h : old ∉ pre) :
    replaceFirst (pre ++ old :: post) old new = some (pre ++ new :: post) := by
  induction pre with
  | nil => simp [replaceFirst]
  | cons p ps ih =>
    simp only [List.mem_cons, not_or] at h
    have hne : ¬(p = old) := fun hpe => h.1 hpe.symm
    simp [List.cons_append, replaceFirst, hne, ih h.2]

theorem replaceFirst_of_notMem (phones : List String) (old new : String)
    (h : old ∉ phones) :
    replaceFirst phones old new = none := by
  induction phones with
  | nil => rfl
  | cons p ps ih =>
    simp only [List.mem_cons, not_or] at h
    have hne : ¬(p = old) := fun hpe => h.1 hpe.symm
    simp [replaceFirst, hne, ih h.2]

theorem mkDate_ok_of_valid (y m d : Nat) (h : validDate ⟨y, m, d⟩ = true) :
    mkDate y m d = .ok ⟨y, m, d⟩ := by
  simp only [validDate, Bool.and_eq_true, decide_eq_true_eq] at h
  obtain ⟨⟨⟨⟨⟨h1, h2⟩, h3⟩, h4⟩, h5⟩, h6⟩ := h
  unfold mkDate
  rw [if_neg (by omega), if_neg (by omega), if_neg (by omega)]

theorem mem_insertByDate {x e : String × PyDate} {l : List (String × PyDate)} :
    e ∈ insertByDate x l ↔ e = x ∨ e ∈ l := by
  induction l with
  | nil => simp [insertByDate]
  | cons y ys ih =>
    unfold insertByDate
    by_cases h : dateLe x.2 y.2 = true
    · rw [if_pos h]
      simp
    · rw [if_neg h]
      simp only [List.mem_cons, ih]
      tauto

theorem mem_sortByDate {e : String × PyDate} {l : List (String × PyDate)} :
    e ∈ sortByDate l ↔ e ∈ l := by
  induction l with
  | nil => simp [sortByDate]
  | cons y ys ih =>
    show e ∈ insertByDate y (sortByDate ys) ↔ _
    rw [mem_insertByDate, ih]
    simp

theorem scanRecords_sound :
    ∀ (rs : List PyRecord) (today endDay : PyDate) (l : List (String × PyDate)),
    scanRecords rs today endDay = .ok l →
    ∀ e ∈ l, ∃ r, r ∈ rs ∧ ∃ b nb, r.birthday = some b ∧ nextBd b today = .ok nb ∧
      (dateLe today nb && dateLe nb endDay) = true ∧ e = (r.name, congrOf nb) := by
  intro rs
  induction rs with
  | nil =>
    intro today endDay l h e he
    simp only [scanRecords, Except.ok.injEq] at h
    subst h
    simp at he
  | cons r rs ih =>
    intro today endDay l h e he
    unfold scanRecords at h
    cases hb : r.birthday with
    | none =>
      simp only [hb] at h
      obtain ⟨r', hr', rest⟩ := ih today endDay l h e he
      exact ⟨r', List.mem_cons_of_mem _ hr', rest⟩
    | some b =>
      simp only [hb] at h
      cases hnb : nextBd b today with
      | error e' => simp only [hnb] at h; cases h
      | ok nb =>
        simp only [hnb] at h
        cases hs : scanRecords rs today endDay with
        | error e' => simp only [hs] at h; cases h
        | ok rest =>
          simp only [hs] at h
          by_cases hw : (dateLe today nb && dateLe nb endDay) = true
          · rw [if_pos hw] at h
            obtain rfl : (r.name, congrOf nb) :: rest = l := by
              simpa using h
            rcases List.mem_cons.mp he with he | he
            · exact ⟨r, List.mem_cons_self _ _, b, nb, hb, hnb, hw, he⟩
            · obtain ⟨r', hr', rest'⟩ := ih today endDay rest hs e he
              exact ⟨r', List.mem_cons_of_mem _ hr', rest'⟩
          · rw [if_neg hw] at h
            obtain rfl : rest = l := by simpa using h
            obtain ⟨r', hr', rest'⟩ := ih today endDay rest hs e he
            exact ⟨r', List.mem_cons_of_mem _ hr', rest'⟩

theorem scanRecords_complete :
    ∀ (rs : List PyRecord) (today endDay : PyDate) (l : List (String × PyDate)),
    scanRecords rs today endDay = .ok l →
    ∀ r ∈ rs, ∀ b nb, r.birthday = some b → nextBd b today = .ok nb →
      (dateLe today nb && dateLe nb endDay) = true → (r.name, congrOf nb) ∈ l := by
  intro rs
  induction rs with
  | nil => intro today endDay l h r hr; simp at hr
  | cons r0 rs ih =>
    intro today endDay l h r hr b nb hb hnb hw
    unfold scanRecords at h
    rcases List.mem_cons.mp hr with rfl | hr'
    · simp only [hb, hnb] at h
      cases hs : scanRecords rs today endDay with
      | error e' => simp only [hs] at h; cases h
      | ok rest =>
        simp only [hs] at h
        rw [if_pos hw] at h
        obtain rfl : (r.name, congrOf nb) :: rest = l := by simpa using h
        exact List.mem_cons_self _ _
    · cases hb0 : r0.birthday with
      | none =>
        simp only [hb0] at h
        exact ih today endDay l h r hr' b nb hb hnb hw
      | some b0 =>
        simp only [hb0] at h
        cases hnb0 : nextBd b0 today with
        | error e' => simp only [hnb0] at h; cases h
        | ok nb0 =>
          simp only [hnb0] at h
          cases hs : scanRecords rs today endDay with
          | error e' => simp only [hs] at h; cases h
          | ok rest =>
            simp only [hs] at h
            have hmem := ih today endDay rest hs r hr' b nb hb hnb hw
            by_cases hw0 : (dateLe today nb0 && dateLe nb0 endDay) = true
            · rw [if_pos hw0] at h
              obtain rfl : (r0.name, congrOf nb0) :: rest = l := by simpa using h
              exact List.mem_cons_of_mem _ hmem
            · rw [if_neg hw0] at h
              obtain rfl : rest = l := by simpa using h
              exact hmem

theorem splitDots_ne_nil : ∀ cs : List Char, splitDots cs ≠ [] := by
  intro cs
  induction cs with
  | nil => simp [splitDots]
  | cons c cs ih =>
    unfold splitDots
    by_cases h : c = '.'
    · simp [h]
    · rw [if_neg h]
      cases hs : splitDots cs with
      | nil => simp
      | cons g gs => simp

theorem splitDots_join : ∀ cs : List Char, joinD (splitDots cs) = cs := by
  intro cs
  induction cs with
  | nil => rfl
  | cons c cs ih =>
    unfold splitDots
    by_cases h : c = '.'
    · rw [if_pos h]
      cases hs : splitDots cs with
      | nil => exact absurd hs (splitDots_ne_nil cs)
      | cons g gs =>
        rw [hs] at ih
        subst h
        simpa [joinD] using ih
    · rw [if_neg h]
      cases hs : splitDots cs with
      | nil => exact absurd hs (splitDots_ne_nil cs)
      | cons g gs =>
        rw [hs] at ih
        cases gs with
        | nil => simpa [joinD] using ih
        | cons g2 gs2 =>
          simp only [joinD, List.cons_append] at ih ⊢
          rw [ih]

theorem splitDots_of_no_dot : ∀ cs : List Char, '.' ∉ cs → splitDots cs = [cs] := by
  intro cs h
  induction cs with
  | nil => rfl
  | cons c cs ih =>
    simp only [List.mem_cons, not_or] at h
    have hne : ¬(c = '.') := fun hc => h.1 hc.symm
    simp [splitDots, hne, ih h.2]

theorem splitDots_append_dot : ∀ (as bs : List Char), '.' ∉ as →
    splitDots (as ++ '.' :: bs) = as :: splitDots bs := by
  intro as bs h
  induction as with
  | nil => simp [splitDots]
  | cons a as ih =>
    simp only [List.mem_cons, not_or] at h
    have hne : ¬(a = '.') := fun hc => h.1 hc.symm
    simp [List.cons_append, splitDots, hne, ih h.2]

theorem asciiDigit_ne_dot {c : Char} (h : asciiDigit c = true) : c ≠ '.' :=
  fun hc => absurd (hc ▸ h) (by decide)

theorem digitChar_toNat (k : Nat) (h : k < 10) : (digitChar k).toNat = 48 + k := by
  interval_cases k <;> decide

theorem digitChar_asciiDigit (k : Nat) (h : k < 10) :
    asciiDigit (digitChar k) = true := by
  interval_cases k <;> decide

theorem digitChar_ne_dot (k : Nat) (h : k < 10) : digitChar k ≠ '.' := by
  interval_cases k <;> decide

theorem render2_all_digits (n : Nat) : (render2 n).all asciiDigit = true := by
  have h1 := digitChar_asciiDigit (n / 10 % 10) (Nat.mod_lt _ (by omega))
  have h2 := digitChar_asciiDigit (n % 10) (Nat.mod_lt _ (by omega))
  simp [render2, h1, h2]

theorem render4_all_digits (n : Nat) : (render4 n).all asciiDigit = true := by
  have h1 := digitChar_asciiDigit (n / 1000 % 10) (Nat.mod_lt _ (by omega))
  have h2 := digitChar_asciiDigit (n / 100 % 10) (Nat.mod_lt _ (by omega))
  have h3 := digitChar_asciiDigit (n / 10 % 10) (Nat.mod_lt _ (by omega))
  have h4 := digitChar_asciiDigit (n % 10) (Nat.mod_lt _ (by omega))
  simp [render4, h1, h2, h3, h4]

theorem render2_no_dot (n : Nat) : '.' ∉ render2 n := by
  have h1 := digitChar_ne_dot (n / 10 % 10) (Nat.mod_lt _ (by omega))
  have h2 := digitChar_ne_dot (n % 10) (Nat.mod_lt _ (by omega))
  simp only [render2, List.mem_cons, List.not_mem_nil, or_false, not_or]
  exact ⟨fun h => h1 h.symm, fun h => h2 h.symm⟩

theorem render4_no_dot (n : Nat) : '.' ∉ render4 n := by
  have h1 := digitChar_ne_dot (n / 1000 % 10) (Nat.mod_lt _ (by omega))
  have h2 := digitChar_ne_dot (n / 100 % 10) (Nat.mod_lt _ (by omega))
  have h3 := digitChar_ne_dot (n / 10 % 10) (Nat.mod_lt _ (by omega))
  have h4 := digitChar_ne_dot (n % 10) (Nat.mod_lt _ (by omega))
  simp only [render4, List.mem_cons, List.not_mem_nil, or_false, not_or]
  exact ⟨fun h => h1 h.symm, fun h => h2 h.symm, fun h => h3 h.symm, fun h => h4 h.symm⟩

theorem render2_length (n : Nat) : (render2 n).length = 2 := rfl

theorem render4_length (n : Nat) : (render4 n).length = 4 := rfl

theorem decimalVal_render2 (n : Nat) (h : n < 100) : decimalVal (render2 n) = n := by
  have h1 := digitChar_toNat (n / 10 % 10) (Nat.mod_lt _ (by omega))
  have h2 := digitChar_toNat (n % 10) (Nat.mod_lt _ (by omega))
  simp [decimalVal, render2, h1, h2]
  omega

theorem decimalVal_render4 (n : Nat) (h : n < 10000) : decimalVal (render4 n) = n := by
  have h1 := digitChar_toNat (n / 1000 % 10) (Nat.mod_lt _ (by omega))
  have h2 := digitChar_toNat (n / 100 % 10) (Nat.mod_lt _ (by omega))
  have h3 := digitChar_toNat (n / 10 % 10) (Nat.mod_lt _ (by omega))
  have h4 := digitChar_toNat (n % 10) (Nat.mod_lt _ (by omega))
  simp [decimalVal, render4, h1, h2, h3, h4]
  omega

/-! ## Claim theorems -/

/-- C7: for every record and strings `oldRaw`, `newRaw` with `newRaw` a
valid phone, `edit_phone` replaces exactly the first phone equal to
`oldRaw` with `newRaw` at the same position, leaving all other entries
(later duplicates of `oldRaw` included) untouched; if no phone equals
`oldRaw` it fails with `ValueError("Old phone not found")` (the
`NotFoundError` of the spec's taxonomy).  The spec's concrete instance
`["1111111111","2222222222","1111111111"]` / old `"1111111111"` / new
`"3333333333"` ↦ `["3333333333","2222222222","1111111111"]` is the
witness. -/
theorem edit_phone_first_match :
    (∀ (name : String) (bd : Option PyDate) (pre post : List String) (old new : String),
      phoneValidate new = true → old ∉ pre →
      editPhoneRun ⟨name, pre ++ old :: post, bd⟩ old new
        = (none, ⟨name, pre ++ new :: post, bd⟩))
    ∧ (∀ (name : String) (bd : Option PyDate) (phones : List String) (old new : String),
      phoneValidate new = true → old ∉ phones →
      editPhoneRun ⟨name, phones, bd⟩ old new
        = (some "Old phone not found", ⟨name, phones, bd⟩)) := by
  constructor
  · intro name bd pre post old new hv hpre
    unfold editPhoneRun
    rw [if_pos hv]
    simp [replaceFirst_append pre post old new hpre]
  · intro name bd phones old new hv hmem
    unfold editPhoneRun
    rw [if_pos hv]
    simp [replaceFirst_of_notMem phones old new hmem]

theorem edit_phone_first_match_witness :
    phoneValidate "3333333333" = true
    ∧ "1111111111" ∉ ([] : List String)
    ∧ editPhoneRun ⟨"K", ["1111111111", "2222222222", "1111111111"], none⟩
        "1111111111" "3333333333"
      = (none, ⟨"K", ["3333333333", "2222222222", "1111111111"], none⟩) :=
  ⟨by decide, by decide,
    edit_phone_first_match.1 "K" none [] ["2222222222", "1111111111"]
      "1111111111" "3333333333" (by decide) (by decide)⟩

/-- C10: `edit_phone` is atomic on failure: whenever the call raises
(invalid `newRaw` or no phone equal to `oldRaw`), the record's phone
list is exactly unchanged; in particular `Phone(new_phone)` runs before
the search, so an invalid `newRaw` never modifies the record even when
`oldRaw` is present. -/
theorem edit_phone_atomic_on_failure :
    ∀ (r : PyRecord) (old new : String),
      (∀ m, (editPhoneRun r old new).1 = some m → (editPhoneRun r old new).2 = r)
      ∧ (phoneValidate new = false →
          editPhoneRun r old new = (some "Phone must contain exactly 10 digits", r)) := by
  intro r old new
  constructor
  · intro m hm
    unfold editPhoneRun at hm ⊢
    by_cases hv : phoneValidate new = true
    · rw [if_pos hv] at hm ⊢
      cases hrf : replaceFirst r.phones old new with
      | none => simp [hrf]
      | some ps => rw [hrf] at hm; simp at hm
    · rw [if_neg hv] at hm ⊢
  · intro hv
    unfold editPhoneRun
    rw [if_neg (by simp [hv])]

theorem edit_phone_atomic_on_failure_witness :
    (editPhoneRun ⟨"A", ["1111111111"], none⟩ "1111111111" "12").1
        = some "Phone must contain exactly 10 digits"
    ∧ (editPhoneRun ⟨"A", ["1111111111"], none⟩ "1111111111" "12").2
        = ⟨"A", ["1111111111"], none⟩ :=
  ⟨by decide,
    (edit_phone_atomic_on_failure ⟨"A", ["1111111111"], none⟩ "1111111111" "12").1
      "Phone must contain exactly 10 digits" (by decide)⟩

/-- C4 counterexample: the claim says creating a record with the empty
string as name fails with a `ValidationError`, but `Name` is a bare
`Field` and `Record.__init__` performs no validation at all: with the
empty name it succeeds and yields an ordinary record. -/
theorem record_init_accepts_empty_name :
    recordInit "" = ⟨"", [], none⟩ := rfl

/-- C4 amended: creating a `Record` never fails — any string, the empty
string included, is accepted as the name — and the new record has an
empty phone sequence and no birthday. -/
theorem record_init_never_fails :
    ∀ s : String, recordInit s = ⟨s, [], none⟩ :=
  fun _ => rfl

/-- C8 counterexample: the claim says `load` never propagates a
deserialization error, but `load_data` catches only `EOFError` and
`pickle.UnpicklingError`; any other exception raised while unpickling
corrupt content escapes to the caller.  Concretely, the byte stream
`b"cbuiltins\nnosuchattr\n."` makes `pickle.load` raise
`AttributeError` (the `pickle` documentation lists `AttributeError`,
`ImportError` and `IndexError` among the exceptions unpickling can
raise), and `load_data` re-raises it. -/
theorem load_data_propagates_other_errors :
    loadData (some (.otherError "AttributeError")) = .error "AttributeError" := rfl

/-- C8 amended: `load_data` returns a freshly empty book when the file
does not exist, when unpickling raises `EOFError` or
`pickle.UnpicklingError`, and when the unpickled value is not an
`AddressBook`; a successfully unpickled `AddressBook` is returned as
is.  Exceptions outside the two caught classes, however, propagate to
the caller (see the counterexample). -/
theorem load_data_fallback_cases :
    loadData none = .ok []
    ∧ (∀ b : Book, loadData (some (.ok true b)) = .ok b)
    ∧ (∀ b : Book, loadData (some (.ok false b)) = .ok [])
    ∧ loadData (some .eofError) = .ok []
    ∧ loadData (some .unpicklingError) = .ok [] :=
  ⟨rfl, fun _ => rfl, fun _ => rfl, rfl, rfl⟩

/-- C3 amended: a date-construction error raised by `date.replace`
during the scan is NOT handled inside `get_upcoming_birthdays`: the
exception propagates and aborts the whole computation, so no results —
not even for the unaffected records — are returned.  (The `birthdays`
handler's `input_error` decorator later converts the `ValueError` to a
message string, but the scan itself yields nothing.)  Formally: if the
first record's birthday cannot be rebuilt in `today`'s year, the whole
scan returns that error, whatever the remaining records are. -/
theorem feb29_error_aborts_scan :
    ∀ (name : String) (ph : List String) (b : PyDate) (rest : Book)
      (today : PyDate) (days : Nat) (e : String),
      bdayReplace b today.year = .error e →
      getUpcomingBirthdays ((name, ⟨name, ph, some b⟩) :: rest) days today = .error e := by
  intro name ph b rest today days e he
  unfold getUpcomingBirthdays bookValues
  simp only [List.map_cons, scanRecords, nextBd, he]

theorem feb29_error_aborts_scan_witness :
    bdayReplace ⟨2000, 2, 29⟩ (PyDate.year ⟨2025, 2, 20⟩) = .error "day is out of range for month"
    ∧ getUpcomingBirthdays [("A", ⟨"A", [], some ⟨2000, 2, 29⟩⟩)] 7 ⟨2025, 2, 20⟩
        = .error "day is out of range for month" :=
  ⟨by decide,
    feb29_error_aborts_scan "A" [] ⟨2000, 2, 29⟩ [] ⟨2025, 2, 20⟩ 7
      "day is out of range for month" (by decide)⟩

/-- C3 counterexample: with two records — "A" born Feb 29 2000 and "B"
born Feb 25 1990 — and today = 2025-02-20 (2025 is not a leap year),
the scan returns the `ValueError` instead of a result list, although
"B" alone would have produced an upcoming birthday; the error-affected
contact is not skipped, the whole computation is lost. -/
theorem feb29_error_drops_other_records :
    getUpcomingBirthdays
        [("A", ⟨"A", [], some ⟨2000, 2, 29⟩⟩), ("B", ⟨"B", [], some ⟨1990, 2, 25⟩⟩)]
        7 ⟨2025, 2, 20⟩
      = .error "day is out of range for month"
    ∧ getUpcomingBirthdays [("B", ⟨"B", [], some ⟨1990, 2, 25⟩⟩)] 7 ⟨2025, 2, 20⟩
      = .ok [("B", ⟨2025, 2, 25⟩)] := by
  exact ⟨by decide, by decide⟩

/-- C9 counterexample: the claim says a handler called with too few
arguments returns the handled "not enough arguments" message — the
string `input_error` produces for that condition is
`"Not enough arguments."` (its `IndexError` branch) — but starred tuple
unpacking raises `ValueError`, not `IndexError`, so `add_contact []`
returns CPython's unpacking message instead. -/
theorem missing_args_message_not_designated :
    (addContact [] []).1 = "not enough values to unpack (expected at least 2, got 0)"
    ∧ (addContact [] []).1 ≠ "Not enough arguments." := by
  exact ⟨rfl, by decide⟩

/-- C9 amended: each handler with required arguments (`add`, `change`,
`phone`, `add-birthday`, `show-birthday`), called with fewer string
arguments than required, returns a handled error-message string — the
text of the `ValueError` CPython raises for starred unpacking, caught by
`input_error`'s `ValueError` branch — rather than raising out of the
handler; the book is left unchanged.  The dedicated
`"Not enough arguments."` `IndexError` branch is never reached by these
handlers. -/
theorem missing_args_handled :
    ∀ (args : List String) (book : Book),
      (args.length < 2 → addContact args book = (unpackMsg 2 args.length, book))
      ∧ (args.length < 3 → changeContact args book = (unpackMsg 3 args.length, book))
      ∧ (args.length < 1 → showPhones args book = (unpackMsg 1 0, book))
      ∧ (args.length < 2 → addBirthday args book = (unpackMsg 2 args.length, book))
      ∧ (args.length < 1 → showBirthday args book = (unpackMsg 1 0, book)) := by
  intro args book
  refine ⟨?_, ?_, ?_, ?_, ?_⟩ <;> intro h
  · rcases args with _ | ⟨a, _ | ⟨b, t⟩⟩
    · rfl
    · rfl
    · simp at h; omega
  · rcases args with _ | ⟨a, _ | ⟨b, _ | ⟨c, t⟩⟩⟩
    · rfl
    · rfl
    · rfl
    · simp at h; omega
  · rcases args with _ | ⟨a, t⟩
    · rfl
    · simp at h
  · rcases args with _ | ⟨a, _ | ⟨b, t⟩⟩
    · rfl
    · rfl
    · simp at h; omega
  · rcases args with _ | ⟨a, t⟩
    · rfl
    · simp at h

theorem missing_args_handled_witness :
    ([] : List String).length < 2
    ∧ addContact [] [] = (unpackMsg 2 0, [])
    ∧ changeContact [] [] = (unpackMsg 3 0, [])
    ∧ showPhones [] [] = (unpackMsg 1 0, [])
    ∧ addBirthday [] [] = (unpackMsg 2 0, [])
    ∧ showBirthday [] [] = (unpackMsg 1 0, []) :=
  ⟨by decide,
    (missing_args_handled [] []).1 (by decide),
    (missing_args_handled [] []).2.1 (by decide),
    (missing_args_handled [] []).2.2.1 (by decide),
    (missing_args_handled [] []).2.2.2.1 (by decide),
    (missing_args_handled [] []).2.2.2.2 (by decide)⟩

theorem daysInMonth_le_31 (y m : Nat) : daysInMonth y m ≤ 31 := by
  unfold daysInMonth
  split
  · split <;> omega
  · split <;> omega

/-- C1: every entry the scan emits for a record whose `nextOccurrence`
passes the window filter carries `congratulationDate` equal to that
`nextOccurrence` shifted forward 2 days when it is a Saturday
(`weekday() = 5`), 1 day when it is a Sunday (`weekday() = 6`), and
unshifted otherwise; the shift is applied after the window filter on the
original `nextOccurrence`, so the displayed date may exceed
`today + withinDays` — witnessed by the concrete third conjunct, where
the Saturday occurrence 2024-06-15 lies inside the 5-day window ending
2024-06-15 but is displayed as 2024-06-17.  (The range hypotheses on
`today` and the window keep the statement inside the region where the
model and CPython's date arithmetic agree.) -/
theorem congratulation_date_shift :
    (∀ nb : PyDate,
      (pyWeekday nb = 5 → congrOf nb = addDays nb 2)
      ∧ (pyWeekday nb = 6 → congrOf nb = addDays nb 1)
      ∧ (pyWeekday nb ≠ 5 → pyWeekday nb ≠ 6 → congrOf nb = nb))
    ∧ (∀ (book : Book) (days : Nat) (today : PyDate) (l : List (String × PyDate)),
        validDate today = true → 1000 ≤ today.year →
        (addDays today days).year ≤ 9998 →
        getUpcomingBirthdays book days today = .ok l →
        ∀ e ∈ l, ∃ r, r ∈ bookValues book ∧ ∃ b nb, r.birthday = some b
          ∧ nextBd b today = .ok nb
          ∧ (dateLe today nb && dateLe nb (addDays today days)) = true
          ∧ e = (r.name, congrOf nb))
    ∧ (getUpcomingBirthdays [("Ann", ⟨"Ann", [], some ⟨1990, 6, 15⟩⟩)] 5 ⟨2024, 6, 10⟩
        = .ok [("Ann", ⟨2024, 6, 17⟩)]
      ∧ dateLt (addDays ⟨2024, 6, 10⟩ 5) ⟨2024, 6, 17⟩ = true) := by
  refine ⟨?_, ?_, by decide, by decide⟩
  · intro nb
    refine ⟨?_, ?_, ?_⟩
    · intro h5
      unfold congrOf
      rw [if_pos h5]
    · intro h6
      unfold congrOf
      rw [if_neg (by omega), if_pos h6]
    · intro h5 h6
      unfold congrOf
      rw [if_neg h5, if_neg h6]
  · intro book days today l _ _ _ hok e he
    unfold getUpcomingBirthdays at hok
    cases hs : scanRecords (bookValues book) today (addDays today days) with
    | error e' => simp only [hs] at hok; cases hok
    | ok l0 =>
      simp only [hs] at hok
      obtain rfl : sortByDate l0 = l := by simpa using hok
      exact scanRecords_sound _ _ _ _ hs e (mem_sortByDate.mp he)

theorem congratulation_date_shift_witness :
    pyWeekday ⟨2024, 6, 15⟩ = 5
    ∧ congrOf ⟨2024, 6, 15⟩ = addDays ⟨2024, 6, 15⟩ 2 :=
  ⟨by decide, (congratulation_date_shift.1 ⟨2024, 6, 15⟩).1 (by decide)⟩

/-- C2: the scan computes `nextOccurrence` as the birthday's month/day
in `today`'s year, recomputed with `today`'s year + 1 exactly when that
date is strictly before `today` (first conjunct, both cases of the
strict comparison); a record with a birthday is kept exactly when
`today <= nextOccurrence <= today + withinDays`, both endpoints
included (second conjunct: the emitted list for a single-record book is
the singleton precisely under the inclusive window test, so a birthday
falling on `today` itself is included). -/
theorem next_occurrence_window :
    (∀ (b today : PyDate),
      validDate ⟨today.year, b.month, b.day⟩ = true →
      (dateLt ⟨today.year, b.month, b.day⟩ today = false →
        nextBd b today = .ok ⟨today.year, b.month, b.day⟩)
      ∧ (dateLt ⟨today.year, b.month, b.day⟩ today = true →
        validDate ⟨today.year + 1, b.month, b.day⟩ = true →
        nextBd b today = .ok ⟨today.year + 1, b.month, b.day⟩))
    ∧ (∀ (name : String) (ph : List String) (b today : PyDate) (days : Nat) (nb : PyDate),
        validDate today = true → 1000 ≤ today.year →
        (addDays today days).year ≤ 9998 →
        nextBd b today = .ok nb →
        getUpcomingBirthdays [(name, ⟨name, ph, some b⟩)] days today
          = .ok (if dateLe today nb && dateLe nb (addDays today days)
                 then [(name, congrOf nb)] else [])) := by
  constructor
  · intro b today h
    constructor
    · intro hlt
      unfold nextBd bdayReplace
      simp only [mkDate_ok_of_valid today.year b.month b.day h, hlt]
      simp
    · intro hlt h2
      unfold nextBd bdayReplace
      simp only [mkDate_ok_of_valid today.year b.month b.day h, hlt]
      simp [mkDate_ok_of_valid (today.year + 1) b.month b.day h2]
  · intro name ph b today days nb _ _ _ hnb
    unfold getUpcomingBirthdays
    simp only [bookValues, List.map_cons, List.map_nil, scanRecords, hnb]
    by_cases hw : (dateLe today nb && dateLe nb (addDays today days)) = true
    · rw [if_pos hw, if_pos hw]
      rfl
    · rw [if_neg hw, if_neg hw]
      rfl

theorem next_occurrence_window_witness :
    validDate ⟨2024, 6, 10⟩ = true
    ∧ 1000 ≤ PyDate.year ⟨2024, 6, 10⟩
    ∧ (addDays ⟨2024, 6, 10⟩ 7).year ≤ 9998
    ∧ nextBd ⟨1990, 6, 12⟩ ⟨2024, 6, 10⟩ = .ok ⟨2024, 6, 12⟩
    ∧ getUpcomingBirthdays [("Bob", ⟨"Bob", [], some ⟨1990, 6, 12⟩⟩)] 7 ⟨2024, 6, 10⟩
        = .ok (if dateLe ⟨2024, 6, 10⟩ ⟨2024, 6, 12⟩
                  && dateLe ⟨2024, 6, 12⟩ (addDays ⟨2024, 6, 10⟩ 7)
               then [("Bob", congrOf ⟨2024, 6, 12⟩)] else []) :=
  ⟨by decide, by decide, by decide, by decide,
    next_occurrence_window.2 "Bob" [] ⟨1990, 6, 12⟩ ⟨2024, 6, 10⟩ 7 ⟨2024, 6, 12⟩
      (by decide) (by decide) (by decide) (by decide)⟩

/-- C5 counterexample: the claim says `Phone` construction fails for
every string that is not 10 ASCII digits, but `str.isdigit` is a
Unicode test: the string of ten fullwidth digit zeros (U+FF10, category
Nd) satisfies `isdigit()` and has `len` 10, so `Phone._validate`
accepts it although none of its characters is an ASCII digit. -/
theorem phone_accepts_nonascii_digits :
    phoneValidate "００００００００００" = true
    ∧ "００００００００００".toList.all asciiDigit = false := by
  exact ⟨by decide, by decide⟩

/-- C5 amended: restricted to ASCII strings the claim holds: `Phone`
construction succeeds exactly when the string consists of 10 ASCII
digit characters (so no sign, separator or whitespace); outside ASCII,
`str.isdigit` also accepts non-ASCII Unicode decimal digits (see the
counterexample). -/
theorem phone_validate_ascii_iff :
    ∀ s : String, s.toList.all (fun c => decide (c.toNat < 128)) = true →
      (phoneValidate s = true ↔
        s.toList.length = 10 ∧ s.toList.all asciiDigit = true) := by
  intro s h
  obtain ⟨data⟩ := s
  unfold phoneValidate pyIsdigit
  constructor
  · intro hv
    simp only [Bool.and_eq_true, decide_eq_true_eq] at hv
    obtain ⟨⟨hne, hall⟩, hlen⟩ := hv
    refine ⟨hlen, ?_⟩
    rw [List.all_eq_true] at hall ⊢
    intro c hc
    have hc128 : c.toNat < 128 := by
      have := (List.all_eq_true.mp h) c hc
      simpa using this
    have hd := hall c hc
    unfold pyIsDigitChar at hd
    unfold asciiDigit
    simp only [Bool.or_eq_true, Bool.and_eq_true, decide_eq_true_eq] at hd ⊢
    omega
  · rintro ⟨hlen, hdig⟩
    simp only [Bool.and_eq_true, decide_eq_true_eq]
    refine ⟨⟨?_, ?_⟩, hlen⟩
    · intro hnil
      rw [show String.toList ⟨data⟩ = data from rfl] at hnil
      rw [show String.toList ⟨data⟩ = data from rfl] at hlen
      rw [hnil] at hlen
      simp at hlen
    · rw [List.all_eq_true] at hdig ⊢
      intro c hc
      have hd := hdig c hc
      unfold asciiDigit at hd
      unfold pyIsDigitChar
      simp only [Bool.or_eq_true, Bool.and_eq_true, decide_eq_true_eq] at hd ⊢
      omega

theorem phone_validate_ascii_iff_witness :
    "0123456789".toList.all (fun c => decide (c.toNat < 128)) = true
    ∧ (phoneValidate "0123456789" = true ↔
        "0123456789".toList.length = 10 ∧ "0123456789".toList.all asciiDigit = true) :=
  ⟨by decide, phone_validate_ascii_iff "0123456789" (by decide)⟩

/-- C6 counterexample: the claim says any string that is not exactly
`DD.MM.YYYY` (2-digit day) fails, and that re-rendering reproduces the
input; but `_strptime`'s regex for `%d` also matches a single digit, so
`Birthday("1.01.2000")` succeeds — and re-rendering produces the padded
`"01.01.2000"`, not the original string. -/
theorem birthday_accepts_single_digit_day :
    pyStrptimeDMY "1.01.2000" = some ⟨2000, 1, 1⟩
    ∧ pyStrftimeDMY ⟨2000, 1, 1⟩ = "01.01.2000"
    ∧ ("1.01.2000" : String) ≠ "01.01.2000" := by
  exact ⟨by decide, by decide, by decide⟩

/-- C6 amended: on ASCII input, `Birthday` construction succeeds exactly
for strings of the form day(1–2 digits).month(1–2 digits).year(exactly 4
digits) denoting a real calendar date (first conjunct); rendering
produces the zero-padded strict form, so for strict `DD.MM.YYYY` input
(2-digit day and month, year ≥ 1000, the range where `%Y` is exactly 4
digits on every platform) parsing then re-rendering reproduces the
input — equivalently, every date rendered in strict form parses back to
itself (second conjunct). -/
theorem birthday_parse_characterization :
    (∀ s : String, s.toList.all (fun c => decide (c.toNat < 128)) = true →
      ((pyStrptimeDMY s).isSome = true ↔
        ∃ ds ms ys : List Char,
          s.toList = ds ++ '.' :: (ms ++ '.' :: ys)
          ∧ ds.all asciiDigit = true ∧ 1 ≤ ds.length ∧ ds.length ≤ 2
          ∧ ms.all asciiDigit = true ∧ 1 ≤ ms.length ∧ ms.length ≤ 2
          ∧ ys.all asciiDigit = true ∧ ys.length = 4
          ∧ validDate ⟨decimalVal ys, decimalVal ms, decimalVal ds⟩ = true))
    ∧ (∀ d : PyDate, validDate d = true → 1000 ≤ d.year →
        pyStrptimeDMY (pyStrftimeDMY d) = some d) := by
  constructor
  · intro s _
    constructor
    · intro hsome
      unfold pyStrptimeDMY at hsome
      rcases hsp : splitDots s.toList with _ | ⟨ds, _ | ⟨ms, _ | ⟨ys, _ | ⟨z, zs⟩⟩⟩⟩ <;>
        simp only [hsp] at hsome
      · cases hsome
      · cases hsome
      · cases hsome
      · by_cases hC : dmyAccept ds ms ys = true
        · have hshape : s.toList = ds ++ '.' :: (ms ++ '.' :: ys) := by
            have hj := splitDots_join s.toList
            rw [hsp] at hj
            simp only [joinD] at hj
            exact hj.symm
          simp only [dmyAccept, Bool.and_eq_true, decide_eq_true_eq] at hC
          obtain ⟨⟨⟨⟨⟨⟨⟨⟨ha1, ha2⟩, ha3⟩, ha4⟩, ha5⟩, ha6⟩, ha7⟩, ha8⟩, ha9⟩ := hC
          exact ⟨ds, ms, ys, hshape, ha1, ha2, ha3, ha4, ha5, ha6, ha7, ha8, ha9⟩
        · unfold dmyParse at hsome
          rw [if_neg hC] at hsome
          cases hsome
      · cases hsome
    · rintro ⟨ds, ms, ys, hshape, h1, h2, h3, h4, h5, h6, h7, h8, h9⟩
      have hds : '.' ∉ ds :=
        fun hmem => (asciiDigit_ne_dot ((List.all_eq_true.mp h1) _ hmem)) rfl
      have hms : '.' ∉ ms :=
        fun hmem => (asciiDigit_ne_dot ((List.all_eq_true.mp h4) _ hmem)) rfl
      have hys : '.' ∉ ys :=
        fun hmem => (asciiDigit_ne_dot ((List.all_eq_true.mp h7) _ hmem)) rfl
      unfold pyStrptimeDMY
      rw [hshape, splitDots_append_dot ds _ hds, splitDots_append_dot ms _ hms,
        splitDots_of_no_dot ys hys]
      show (dmyParse ds ms ys).isSome = true
      unfold dmyParse
      rw [if_pos (by
        simp [dmyAccept, h1, h2, h3, h4, h5, h6, h7, h8, h9])]
      rfl
  · intro d hd hy
    obtain ⟨y, m, dd⟩ := d
    have hb := hd
    simp only [validDate, Bool.and_eq_true, decide_eq_true_eq] at hb
    obtain ⟨⟨⟨⟨⟨hb1, hb2⟩, hb3⟩, hb4⟩, hb5⟩, hb6⟩ := hb
    have hdm := daysInMonth_le_31 y m
    have e1 : decimalVal (render2 dd) = dd := decimalVal_render2 dd (by omega)
    have e2 : decimalVal (render2 m) = m := decimalVal_render2 m (by omega)
    have e3 : decimalVal (render4 y) = y := decimalVal_render4 y (by omega)
    unfold pyStrftimeDMY pyStrptimeDMY
    rw [show String.toList ⟨render2 dd ++ '.' :: render2 m ++ '.' :: render4 y⟩
          = render2 dd ++ '.' :: (render2 m ++ '.' :: render4 y) from rfl]
    rw [splitDots_append_dot _ _ (render2_no_dot dd),
      splitDots_append_dot _ _ (render2_no_dot m),
      splitDots_of_no_dot _ (render4_no_dot y)]
    show dmyParse (render2 dd) (render2 m) (render4 y) = some ⟨y, m, dd⟩
    unfold dmyParse
    rw [if_pos (by
      simp [dmyAccept, render2_all_digits, render4_all_digits, render2_length,
        render4_length, e1, e2, e3, hd])]
    rw [e1, e2, e3]

theorem birthday_parse_characterization_witness :
    validDate ⟨1990, 6, 12⟩ = true
    ∧ 1000 ≤ PyDate.year ⟨1990, 6, 12⟩
    ∧ pyStrptimeDMY (pyStrftimeDMY ⟨1990, 6, 12⟩) = some ⟨1990, 6, 12⟩ :=
  ⟨by decide, by decide,
    birthday_parse_characterization.2 ⟨1990, 6, 12⟩ (by decide) (by decide)⟩
